import Mathlib

/-!
# Verification of the dev.to ETL pipeline

A shallow embedding of the single-file ETL script: `fetch_page` (an HTTP GET
with a prefect retry policy of 3 retries and delays [2, 5, 15]),
`to_dataframe` (pandas `json_normalize` over the concatenated pages followed by
selection of eight fixed columns), `save_csv` (CSV serialization with a header
row), and the `etl` driver that fetches pages 1..N in order.

Machine-level details are modelled as follows: a JSON value is the inductive
`Json`; a record (Python dict) is an association list; `json_normalize`
flattens nested objects with a dot separator (`flattenPairs`); a missing cell
(pandas NaN) is `Option.none`; errors are the `PipelineError` kinds of the
design; the external world of one page fetch is an oracle giving each attempt
an outcome.
-/

namespace DevtoEtl

/-- JSON values as decoded by the HTTP client. -/
inductive Json where
  | str (s : String)
  | num (n : Int)
  | bool (b : Bool)
  | null
  | arr (elems : List Json)
  | obj (fields : List (String × Json))

/-- A raw article record: a Python dict from field name to JSON value. -/
abbrev Record := List (String × Json)

/-- One API response page: a JSON array of records. -/
abbrev Page := List Record

/-- The error kinds of the pipeline design. -/
inductive PipelineError where
  | http (status : Nat)
  | network
  | decodeFailure
  | missingField
  | ioFailure
deriving DecidableEq

/-- A projected table: one row per record, one `Option Json` cell per selected
column, `none` standing for a pandas NaN cell. -/
abbrev Table := List (List (Option Json))

/-! ## Transformer: `to_dataframe` -/

/-- The eight selected columns, in the order hard-coded in `to_dataframe`. -/
def requiredCols : List String :=
  ["id", "title", "published_at", "url", "comments_count",
   "positive_reactions_count", "tag_list", "user.username"]

mutual

/-- The flattening performed by `pd.json_normalize`: nested objects are
expanded recursively, joining key paths with a dot; all other values
(including arrays) are kept as-is under their key. -/
def flattenPairs : List (String × Json) → List (String × Json)
  | [] => []
  | (k, v) :: rest => flattenEntry k v ++ flattenPairs rest

/-- Flatten a single key-value entry: a nested object contributes its own
flattened entries under dotted keys, any other value stays one entry. -/
def flattenEntry : String → Json → List (String × Json)
  | k, Json.obj fs => (flattenPairs fs).map (fun p => (k ++ "." ++ p.1, p.2))
  | k, v => [(k, v)]

end

/-- The cell of record `r` in column `c` of the normalized frame:

the value at the flattened key when present, NaN (`none`) otherwise. -/
def cellOf (r : Record) (c : String) : Option Json :=
  (flattenPairs r).lookup c

/-- A column exists in the normalized frame iff at least one record
contributes the flattened key (pandas takes the union of keys and fills the
other records with NaN). -/
def colPresent (records : List Record) (c : String) : Bool :=
  records.any (fun r => (cellOf r c).isSome)

/-- The row `to_dataframe` produces for one record: the eight selected cells
in fixed column order. -/
def projectRow (r : Record) : List (Option Json) :=
  requiredCols.map (fun c => cellOf r c)

/-- `to_dataframe`: concatenate the pages in order, normalize, and select the
eight columns.  Selecting a label absent from the frame raises a KeyError,
modelled as `missingField`. -/
def to_dataframe (raw_articles : List Page) : Except PipelineError Table :=
  let records := raw_articles.flatten
  if requiredCols.all (colPresent records) then
    Except.ok (records.map projectRow)
  else
    Except.error PipelineError.missingField

/-! ## Fetcher: `fetch_page` with the prefect retry policy -/

/-- The retry delays declared on the fetch task, in seconds. -/
def retryDelays : List Nat := [2, 5, 15]

/-- One HTTP response: a status code, and the decoded JSON body when the body
parses as a JSON array (`none` models an unparseable body). -/
structure HttpResp where
  status : Nat
  decoded : Option Page

/-- Whether a status code counts as success for `raise_for_status`. -/
def is2xx (s : Nat) : Bool := decide (200 ≤ s) && decide (s < 300)

/-- The body of one `fetch_page` attempt: `raise_for_status` turns a non-2xx
status into an HTTP error carrying the status; `.json()` turns an
unparseable body into a decode error; otherwise the page is returned. -/
def fetchAttempt (r : HttpResp) : Except PipelineError Page :=
  if is2xx r.status then
    match r.decoded with
    | some recs => Except.ok recs
    | none => Except.error PipelineError.decodeFailure
  else
    Except.error (PipelineError.http r.status)

/-- The retry loop prefect wraps around a task body: run attempt `k`; on
success stop; on failure, if retries remain, wait the scheduled delay and try
again, else surface the last failure.  Returns the outcome and the total time
waited between attempts. -/
def runRetries {α : Type} (oracle : Nat → Except PipelineError α) :
    Nat → Nat → Nat → Except PipelineError α × Nat
  | retriesLeft, k, waited =>
    match oracle k with
    | Except.ok p => (Except.ok p, waited)
    | Except.error e =>
      match retriesLeft with
      | 0 => (Except.error e, waited)
      | r + 1 => runRetries oracle r (k + 1) (waited + retryDelays.getD k 0)

/-- The caller-visible fetch of one page: the task body attempted up to
1 + 3 times under the declared delays, given the oracle of attempt
outcomes. -/
def fetchTask (oracle : Nat → Except PipelineError Page) :
    Except PipelineError Page × Nat :=
  runRetries oracle 3 0 0

/-- The request `fetch_page` builds before sending. -/
structure HttpRequest where
  url : String
  queryParams : List (String × Int)

/-- Request construction in `fetch_page`: the articles path under the API
base, with the page number and page size passed as query parameters. -/
def buildRequest (api_base : String) (page per_page : Int) : HttpRequest :=
  { url := api_base ++ "/articles"
    queryParams := [("page", page), ("per_page", per_page)] }

/-! ## Writer: `save_csv`

`df.to_csv(path, index=False)` writes a header row with the column names,
then one line per row, separating fields with commas, quoting a field
(doubling any embedded quote) exactly when it contains a comma, a quote or a
line break, and terminating every line with a newline. -/

/-- Whether minimal quoting must quote this field. -/
def needsQuote (cs : List Char) : Bool :=
  cs.any (fun c => c == ',' || c == '"' || c == '\n' || c == '\r')

/-- Double every embedded quote character. -/
def escQ : List Char → List Char
  | [] => []
  | c :: rest => if c = '"' then '"' :: '"' :: escQ rest else c :: escQ rest

/-- Render one field under minimal quoting. -/
def escapeFieldChars (cs : List Char) : List Char :=
  if needsQuote cs then '"' :: (escQ cs ++ ['"']) else cs

/-- Render one row: fields joined by commas. -/
def renderRowChars : List (List Char) → List Char
  | [] => []
  | [f] => escapeFieldChars f
  | f :: fs => escapeFieldChars f ++ ',' :: renderRowChars fs

/-- Render all lines, each terminated by a newline. -/
def renderTableChars : List (List (List Char)) → List Char
  | [] => []
  | r :: rs => renderRowChars r ++ '\n' :: renderTableChars rs

/-- The CSV file content for the given data rows: the fixed header row
followed by the data rows. -/
def writeCSV (rows : List (List String)) : String :=
  String.mk (renderTableChars ((requiredCols :: rows).map (List.map String.data)))

/-- The single-quote character, used by the Python repr of lists. -/
def squote : Char := Char.ofNat 39

mutual

/-- The Python repr of a JSON value, which is what pandas prints for
non-scalar cells such as `tag_list`. -/
def pyRepr : Json → String
  | Json.str s => String.mk (squote :: (s.data ++ [squote]))
  | Json.num n => toString n
  | Json.bool b => if b then "True" else "False"
  | Json.null => "None"
  | Json.arr xs => "[" ++ String.intercalate ", " (pyReprList xs) ++ "]"
  | Json.obj fs => "\x7b" ++ String.intercalate ", " (pyReprFields fs) ++ "\x7d"

/-- Reprs of the elements of a list value. -/
def pyReprList : List Json → List String
  | [] => []
  | x :: xs => pyRepr x :: pyReprList xs

/-- Reprs of the key-value pairs of an object value. -/
def pyReprFields : List (String × Json) → List String
  | [] => []
  | (k, v) :: fs =>
      (String.mk (squote :: (k.data ++ [squote])) ++ ": " ++ pyRepr v) ::
        pyReprFields fs

end

/-- The string pandas writes for one cell: empty for NaN and None, the bare
text for a string, the repr otherwise. -/
def cellStr : Option Json → String
  | none => ""
  | some Json.null => ""
  | some (Json.str s) => s
  | some (Json.num n) => toString n
  | some j => pyRepr j

/-- `save_csv`: the content written to the output file for a Table. -/
def save_csv (t : Table) : String :=
  writeCSV (t.map (fun row => row.map cellStr))

/-! ## Reading the file back: a standard CSV reader, for the round-trip
property. -/

/-- Parse the body of a quoted field, the opening quote already consumed:
a doubled quote stands for one literal quote, a lone quote closes the
field. -/
def parseQuoted : List Char → Option (List Char × List Char)
  | [] => none
  | c :: rest =>
    if c = '"' then
      match rest with
      | '"' :: rest2 => (parseQuoted rest2).map (fun p => ('"' :: p.1, p.2))
      | _ => some ([], rest)
    else
      (parseQuoted rest).map (fun p => (c :: p.1, p.2))

/-- Parse an unquoted field: everything up to the next comma or line
break, which is left in the remainder. -/
def parseUnquoted : List Char → List Char × List Char
  | [] => ([], [])
  | c :: rest =>
    if c = ',' || c = '\n' then ([], c :: rest)
    else
      let p := parseUnquoted rest
      (c :: p.1, p.2)

/-- Parse one field, quoted or not. -/
def parseField : List Char → Option (List Char × List Char)
  | '"' :: rest => parseQuoted rest
  | l => some (parseUnquoted l)

/-- Parse one line: at least one field, fields separated by commas, the
line ended by a newline or the end of input.  The fuel bounds the number of
fields. -/
def parseRowFuel : Nat → List Char → Option (List (List Char) × List Char)
  | 0, _ => none
  | fuel + 1, l =>
    match parseField l with
    | none => none
    | some (f, rest) =>
      match rest with
      | ',' :: rest2 => (parseRowFuel fuel rest2).map (fun p => (f :: p.1, p.2))
      | '\n' :: rest2 => some ([f], rest2)
      | [] => some ([f], [])
      | _ => none

/-- Parse all lines until the input is exhausted.  The fuel bounds the
number of lines. -/
def parseRowsFuel : Nat → List Char → Option (List (List (List Char)))
  | _, [] => some []
  | 0, _ => none
  | fuel + 1, l =>
    match parseRowFuel (l.length + 1) l with
    | none => none
    | some (row, rest) => (parseRowsFuel fuel rest).map (fun rows => row :: rows)

/-- Read a whole CSV file back into its rows of string fields. -/
def parseCSV (s : String) : Option (List (List String)) :=
  (parseRowsFuel (s.data.length + 1) s.data).map
    (List.map (List.map (fun cs => String.mk cs)))

/-! ## Orchestrator: `etl` -/

/-- The page indices the driver loop iterates over: `range(1, pages + 1)`. -/
def fetchSchedule (pages : Nat) : List Nat := List.range' 1 pages

/-- The extract loop: fetch the scheduled pages one at a time, in order,
appending each result; the first unrecovered failure aborts the loop. -/
def fetchAll (oracle : Nat → Nat → Except PipelineError Page) :
    List Nat → Except PipelineError (List Page)
  | [] => Except.ok []
  | pg :: rest =>
    match (fetchTask (oracle pg)).1 with
    | Except.error e => Except.error e
    | Except.ok p => (fetchAll oracle rest).map (fun ps => p :: ps)

/-- The driver: fetch every scheduled page (each through the retried fetch
task, with `oracle pg` giving the outcome of each attempt at page `pg`),
transform the collected pages, and write the CSV.  The returned string is the
content of the output file; an error means the run aborted with no file
written. -/
def etl (oracle : Nat → Nat → Except PipelineError Page) (pages : Nat) :
    Except PipelineError String :=
  (fetchAll oracle (fetchSchedule pages)).bind
    (fun raw => (to_dataframe raw).map save_csv)

/-- The write task as prefect runs it: the save_csv task carries no retry
annotation, so its body is attempted exactly once — zero retries, zero
wait — and the single attempt's failure surfaces as-is.  `disk` gives the
outcome of each attempt to write the file at the output path (an IO failure
models a permission or disk-space error from to_csv). -/
def writeTask (disk : Nat → Except PipelineError Unit) :
    Except PipelineError Unit × Nat :=
  runRetries disk 0 0 0

/-- The driver with the write effect made explicit: fetch, transform, then
run the write task; on a successful write the run reports the CSV content
placed at the output path, and any stage failure aborts the run with that
error. -/
def etlWithDisk (oracle : Nat → Nat → Except PipelineError Page)
    (disk : Nat → Except PipelineError Unit) (pages : Nat) :
    Except PipelineError String :=
  (fetchAll oracle (fetchSchedule pages)).bind
    (fun raw => (to_dataframe raw).bind
      (fun t => ((writeTask disk).1).map (fun _ => save_csv t)))

/-! ## Sample records -/

/-- A sample article record with every required field present. -/
def recFull : Record :=
  [("id", Json.num 1), ("title", Json.str "A"),
   ("published_at", Json.str "2021-01-01"), ("url", Json.str "https://dev.to/a"),
   ("comments_count", Json.num 5), ("positive_reactions_count", Json.num 7),
   ("tag_list", Json.arr [Json.str "python"]),
   ("user", Json.obj [("username", Json.str "alice")])]

/-- A second full record. -/
def recFull2 : Record :=
  [("id", Json.num 2), ("title", Json.str "B"),
   ("published_at", Json.str "2021-02-02"), ("url", Json.str "https://dev.to/b"),
   ("comments_count", Json.num 0), ("positive_reactions_count", Json.num 1),
   ("tag_list", Json.arr []),
   ("user", Json.obj [("username", Json.str "bob")])]

/-- A third full record. -/
def recFull3 : Record :=
  [("id", Json.num 3), ("title", Json.str "C"),
   ("published_at", Json.str "2021-03-03"), ("url", Json.str "https://dev.to/c"),
   ("comments_count", Json.num 2), ("positive_reactions_count", Json.num 4),
   ("tag_list", Json.arr [Json.str "rust"]),
   ("user", Json.obj [("username", Json.str "carol")])]

/-- A record lacking the title field but having all other required fields. -/
def recNoTitle : Record :=
  [("id", Json.num 9),
   ("published_at", Json.str "2021-09-09"), ("url", Json.str "https://dev.to/z"),
   ("comments_count", Json.num 3), ("positive_reactions_count", Json.num 6),
   ("tag_list", Json.arr []),
   ("user", Json.obj [("username", Json.str "zoe")])]

/-- The Table of the C3 scenario: pages of sizes 2 and 1. -/
def scenarioTable : Table :=
  [projectRow recFull, projectRow recFull2, projectRow recFull3]

/-- The attempt oracle of the C6 scenario: two network failures, then
success. -/
def transientOracle : Nat → Except PipelineError Page := fun k =>
  if k < 2 then Except.error PipelineError.network else Except.ok [recFull]

/-- The attempt oracle refuting C7: the task body fails with a decode error
on the first attempt and succeeds on the second. -/
def decodeOracle : Nat → Except PipelineError Page := fun k =>
  if k = 0 then Except.error PipelineError.decodeFailure else Except.ok [recFull]

/-- A disk whose first write attempt fails with an IO error while any later
attempt would succeed: it separates a retried stage from an un-retried
one. -/
def flakyDisk : Nat → Except PipelineError Unit := fun k =>
  if k = 0 then Except.error PipelineError.ioFailure else Except.ok ()

/-- A sample row of already-stringified cells, with a comma and a quote to
exercise the quoting rules. -/
def sampleRows : List (List String) :=
  [["1", "A,B", "q\"t", "", "5", "7", "[]", "bob"]]

/-! ## Helper lemmas -/

/-- A fetch whose first attempt succeeds returns that success at once. -/
theorem fetchTask_first_ok (oracle : Nat → Except PipelineError Page) (p : Page)
    (h : oracle 0 = Except.ok p) : fetchTask oracle = (Except.ok p, 0) := by
  simp [fetchTask, runRetries, h]

/-- When every attempt at every page succeeds, the extract loop returns the
pages of the schedule in order. -/
theorem fetchAll_pure (oracle : Nat → Nat → Except PipelineError Page)
    (f : Nat → Page) (h : ∀ pg k, oracle pg k = Except.ok (f pg)) :
    ∀ l : List Nat, fetchAll oracle l = Except.ok (l.map f) := by
  intro l
  induction l with
  | nil => rfl
  | cons pg rest ih =>
    simp [fetchAll, fetchTask_first_ok (oracle pg) (f pg) (h pg 0), ih, Except.map]

/-- The i-th scheduled page index is 1 + i. -/
theorem fetchSchedule_getD (N i : Nat) (h : i < N) :
    (fetchSchedule N).getD i 0 = 1 + i := by
  simp [fetchSchedule, List.getD, List.getElem?_range', h]

/-! ## The claims -/

/-- C2: for a record containing all eight required fields, the projection is
the pure function `projectRow`, and its output row is exactly the tuple of
the eight field values, in fixed column order, with `user.username` looked up
at the flattened key of the nested user object; nothing else is applied to
the values. -/
theorem projection_row_eq (r : Record)
    (vid vtitle vpub vurl vcc vprc vtags vuser : Json)
    (h1 : cellOf r "id" = some vid)
    (h2 : cellOf r "title" = some vtitle)
    (h3 : cellOf r "published_at" = some vpub)
    (h4 : cellOf r "url" = some vurl)
    (h5 : cellOf r "comments_count" = some vcc)
    (h6 : cellOf r "positive_reactions_count" = some vprc)
    (h7 : cellOf r "tag_list" = some vtags)
    (h8 : cellOf r "user.username" = some vuser) :
    projectRow r = [some vid, some vtitle, some vpub, some vurl,
      some vcc, some vprc, some vtags, some vuser] := by
  simp [projectRow, requiredCols, h1, h2, h3, h4, h5, h6, h7, h8]

/-- Witness for C2, at a concrete record whose username sits in the nested
user object. -/
theorem projection_row_eq_witness :
    projectRow recFull = [some (Json.num 1), some (Json.str "A"),
      some (Json.str "2021-01-01"), some (Json.str "https://dev.to/a"),
      some (Json.num 5), some (Json.num 7),
      some (Json.arr [Json.str "python"]), some (Json.str "alice")] :=
  projection_row_eq recFull _ _ _ _ _ _ _ _ rfl rfl rfl rfl rfl rfl rfl rfl

/-- C3: a Table produced by the Transformer has one row per record of the
concatenated pages, in page order then within-page order, hence exactly
the sum of the page lengths many rows. -/
theorem table_row_count (pages : List Page) (t : Table)
    (h : to_dataframe pages = Except.ok t) :
    t = pages.flatten.map projectRow
    ∧ t.length = (pages.map List.length).sum := by
  unfold to_dataframe at h
  by_cases hc : requiredCols.all (colPresent pages.flatten)
  · simp only [hc, if_true] at h
    cases h
    refine ⟨rfl, ?_⟩
    rw [List.length_map, List.length_flatten]
  · simp [hc] at h

/-- Witness for C3: with page 1 = [recFull, recFull2] and page 2 =
[recFull3], the output has exactly 3 rows in page-then-position order. -/
theorem table_row_count_witness :
    scenarioTable = ([[recFull, recFull2], [recFull3]] : List Page).flatten.map projectRow
    ∧ scenarioTable.length =
        (([[recFull, recFull2], [recFull3]] : List Page).map List.length).sum :=
  table_row_count [[recFull, recFull2], [recFull3]] scenarioTable rfl

/-- C4: the driver schedules exactly N fetches, at page indices 1..N in
increasing order, and when every fetch succeeds it passes exactly the ordered
list of fetched pages to the Transformer. -/
theorem etl_invokes_fetch_in_order (N : Nat) :
    (fetchSchedule N).length = N
    ∧ (∀ i, i < N → (fetchSchedule N).getD i 0 = 1 + i)
    ∧ (fetchSchedule N).Pairwise (· < ·)
    ∧ (∀ (f : Nat → Page) (oracle : Nat → Nat → Except PipelineError Page),
        (∀ pg k, oracle pg k = Except.ok (f pg)) →
        fetchAll oracle (fetchSchedule N) = Except.ok ((fetchSchedule N).map f)
        ∧ etl oracle N = (to_dataframe ((fetchSchedule N).map f)).map save_csv) := by
  refine ⟨by simp [fetchSchedule], fun i h => fetchSchedule_getD N i h,
    List.pairwise_lt_range' 1 N, ?_⟩
  intro f oracle h
  have hall := fetchAll_pure oracle f h (fetchSchedule N)
  refine ⟨hall, ?_⟩
  simp only [etl]
  rw [hall]
  rfl

/-- Witness for C4 at N = 3. -/
theorem etl_invokes_fetch_in_order_witness :
    (fetchSchedule 3).getD 0 0 = 1 ∧ (fetchSchedule 3).getD 2 0 = 1 + 2 :=
  ⟨(etl_invokes_fetch_in_order 3).2.1 0 (by decide),
   (etl_invokes_fetch_in_order 3).2.1 2 (by decide)⟩

/-- C6: on transient failures the fetch retries up to 3 times with waits of
2, then 5, then 15 seconds; two transient failures followed by a success
yield the successful page with a total wait of 2 + 5, and four failures
surface the final failure after a total wait of 2 + 5 + 15. -/
theorem fetch_retry_policy :
    (∀ (oracle : Nat → Except PipelineError Page) (p : Page),
      oracle 0 = Except.error PipelineError.network →
      oracle 1 = Except.error PipelineError.network →
      oracle 2 = Except.ok p →
      fetchTask oracle = (Except.ok p, 2 + 5))
    ∧ (∀ (oracle : Nat → Except PipelineError Page) (e : PipelineError),
      (∀ k, oracle k = Except.error e) →
      fetchTask oracle = (Except.error e, 2 + 5 + 15))
    ∧ retryDelays = [2, 5, 15] := by
  refine ⟨?_, ?_, rfl⟩
  · intro oracle p h0 h1 h2
    simp [fetchTask, runRetries, h0, h1, h2, retryDelays]
  · intro oracle e h
    simp [fetchTask, runRetries, h, retryDelays]

/-- Witness for C6. -/
theorem fetch_retry_policy_witness :
    fetchTask transientOracle = (Except.ok [recFull], 2 + 5) :=
  fetch_retry_policy.1 transientOracle [recFull] rfl rfl rfl

/-- C8: when every attempt gets a non-2xx response, the fetch fails, after
the retries are exhausted, with an HTTP error carrying the status code of
the final response. -/
theorem http_error_carries_status (resps : Nat → HttpResp)
    (h : ∀ k, k ≤ 3 → is2xx (resps k).status = false) :
    fetchTask (fun k => fetchAttempt (resps k)) =
      (Except.error (PipelineError.http (resps 3).status), 2 + 5 + 15) := by
  have a0 := h 0 (by omega)
  have a1 := h 1 (by omega)
  have a2 := h 2 (by omega)
  have a3 := h 3 (by omega)
  simp [fetchTask, runRetries, fetchAttempt, a0, a1, a2, a3, retryDelays]

/-- Witness for C8: a service that always answers 404. -/
theorem http_error_carries_status_witness :
    fetchTask (fun k => fetchAttempt ((fun _ => HttpResp.mk 404 none) k)) =
      (Except.error (PipelineError.http 404), 2 + 5 + 15) :=
  http_error_carries_status (fun _ => HttpResp.mk 404 none) (fun _ _ => rfl)

/-- C9: the configured page size is passed through verbatim as the per_page
query parameter, for every value including those above the documented
maximum of 30; the request also carries the page number and targets the
articles path, and nothing clamps or rejects the value. -/
theorem per_page_passthrough (api_base : String) (page per_page : Int) :
    (buildRequest api_base page per_page).queryParams.lookup "per_page" = some per_page
    ∧ (buildRequest api_base page per_page).queryParams.lookup "page" = some page
    ∧ (buildRequest api_base page per_page).url = api_base ++ "/articles" := by
  refine ⟨?_, ?_, rfl⟩ <;> simp [buildRequest, List.lookup]

/-- C10: when the concatenated record sequence is empty (page count 0, or
every page an empty array), the column selection fails, so the run aborts
and not even a header-only file is written. -/
theorem empty_input_fails (pages : List Page) (h : ∀ p ∈ pages, p = []) :
    to_dataframe pages = Except.error PipelineError.missingField
    ∧ ∀ (oracle : Nat → Nat → Except PipelineError Page) (N : Nat),
        (∀ pg k, oracle pg k = Except.ok ([] : Page)) →
        etl oracle N = Except.error PipelineError.missingField := by
  constructor
  · have hflat : pages.flatten = [] := by
      simp only [List.flatten_eq_nil_iff]
      exact h
    unfold to_dataframe
    rw [hflat]
    rfl
  · intro oracle N hok
    have hall := fetchAll_pure oracle (fun _ => []) hok (fetchSchedule N)
    have hdf : to_dataframe ((fetchSchedule N).map (fun _ => ([] : Page))) =
        Except.error PipelineError.missingField := by
      have : ((fetchSchedule N).map (fun _ => ([] : Page))).flatten = [] := by
        simp
      unfold to_dataframe
      rw [this]
      rfl
    simp only [etl]
    rw [hall]
    show (to_dataframe ((fetchSchedule N).map (fun _ => ([] : Page)))).map save_csv = _
    rw [hdf]
    rfl

/-- Witness for C10: two pages, both empty. -/
theorem empty_input_fails_witness :
    to_dataframe [[], []] = Except.error PipelineError.missingField :=
  (empty_input_fails [[], []] (by simp)).1

/-- C1 is refuted at this input: a fetched record lacking the title field,
alongside a record that has it, does not fail the run; the selection
succeeds because the column exists in the normalized frame, the missing
cell merely becoming NaN. -/
theorem missing_field_does_not_always_fail :
    cellOf recNoTitle "title" = none
    ∧ (to_dataframe [[recFull, recNoTitle]]).isOk = true := ⟨rfl, rfl⟩

/-- C1 (amended): the run fails with MissingFieldError exactly when one of
the eight required fields is absent from every fetched record; whenever it
fails, the driver aborts and no file content at all is produced.  A record
individually missing a field that another fetched record carries does not
fail the run; its cell is just empty. -/
theorem missing_field_error_iff (pages : List Page) :
    (to_dataframe pages = Except.error PipelineError.missingField ↔
      ∃ c ∈ requiredCols, ∀ r ∈ pages.flatten, cellOf r c = none)
    ∧ (to_dataframe pages = Except.error PipelineError.missingField →
        ∀ (oracle : Nat → Nat → Except PipelineError Page) (N : Nat),
          fetchAll oracle (fetchSchedule N) = Except.ok pages →
          etl oracle N = Except.error PipelineError.missingField) := by
  constructor
  · have hiff : to_dataframe pages = Except.error PipelineError.missingField ↔
        requiredCols.all (colPresent pages.flatten) = false := by
      unfold to_dataframe
      by_cases hc : requiredCols.all (colPresent pages.flatten) = true <;>
        simp [hc]
    rw [hiff, ← Bool.not_eq_true, List.all_eq_true]
    push_neg
    simp only [colPresent, List.any_eq_true, Option.isSome_iff_ne_none,
      List.mem_flatten, not_exists, not_and, ne_eq, not_not]
  · intro hdf oracle N hall
    simp only [etl]
    rw [hall]
    show (to_dataframe pages).map save_csv = _
    rw [hdf]
    rfl

/-- Witness for the amended C1: a field absent from every fetched record
does fail the run. -/
theorem missing_field_error_iff_witness :
    to_dataframe [[recNoTitle]] = Except.error PipelineError.missingField :=
  (missing_field_error_iff [[recNoTitle]]).1.mpr
    ⟨"title", by simp [requiredCols], by
      intro r hr
      have : r = recNoTitle := by simpa using hr
      subst this
      rfl⟩

/-- C7 is refuted at this input: a decode error raised inside the fetch
task does not propagate immediately; the whole task body is retried after
the 2 second wait and the fetch succeeds. -/
theorem decode_error_is_retried :
    decodeOracle 0 = Except.error PipelineError.decodeFailure
    ∧ fetchTask decodeOracle = (Except.ok [recFull], 2) := ⟨rfl, rfl⟩

/-- C7 (amended): every failure inside the fetch task is retried under the
fixed schedule, whatever its kind (network, HTTP status, or decode error
alike), because the retry annotation wraps the whole task body; the later
stages carry no retry annotation, so their failures are never retried and
abort the run at once: the write task surfaces its first IO failure even
when a second attempt would have succeeded, a transform failure aborts the
run before any write so no output is produced, and a write failure aborts
the run with that IO error. -/
theorem retry_scope :
    (∀ (oracle : Nat → Except PipelineError Page) (e : PipelineError) (p : Page),
      oracle 0 = Except.error e → oracle 1 = Except.ok p →
      fetchTask oracle = (Except.ok p, 2))
    ∧ (∀ (disk : Nat → Except PipelineError Unit) (e : PipelineError),
        disk 0 = Except.error e → writeTask disk = (Except.error e, 0))
    ∧ (∀ (oracle : Nat → Nat → Except PipelineError Page) (N : Nat) (pages : List Page),
        fetchAll oracle (fetchSchedule N) = Except.ok pages →
        to_dataframe pages = Except.error PipelineError.missingField →
        etl oracle N = Except.error PipelineError.missingField)
    ∧ (∀ (oracle : Nat → Nat → Except PipelineError Page)
        (disk : Nat → Except PipelineError Unit) (N : Nat)
        (pages : List Page) (t : Table) (e : PipelineError),
        fetchAll oracle (fetchSchedule N) = Except.ok pages →
        to_dataframe pages = Except.ok t →
        disk 0 = Except.error e →
        etlWithDisk oracle disk N = Except.error e) := by
  refine ⟨?_, ?_, ?_, ?_⟩
  · intro oracle e p h0 h1
    simp [fetchTask, runRetries, h0, h1, retryDelays]
  · intro disk e h
    simp [writeTask, runRetries, h]
  · intro oracle N pages hall hdf
    simp only [etl]
    rw [hall]
    show (to_dataframe pages).map save_csv = _
    rw [hdf]
    rfl
  · intro oracle disk N pages t e hall hdf h
    have hw : (writeTask disk).1 = Except.error e := by
      simp [writeTask, runRetries, h]
    simp only [etlWithDisk]
    rw [hall]
    show (to_dataframe pages).bind
      (fun t => ((writeTask disk).1).map (fun _ => save_csv t)) = Except.error e
    rw [hdf]
    show ((writeTask disk).1).map (fun _ => save_csv t) = Except.error e
    rw [hw]
    rfl

/-- Witness for the amended C7: a decode failure on the first fetch attempt
is retried and the fetch succeeds, while an IO failure on the first write
attempt is final even though the second attempt would succeed. -/
theorem retry_scope_witness :
    fetchTask decodeOracle = (Except.ok [recFull], 2)
    ∧ writeTask flakyDisk = (Except.error PipelineError.ioFailure, 0) :=
  ⟨retry_scope.1 decodeOracle PipelineError.decodeFailure [recFull] rfl rfl,
   retry_scope.2.1 flakyDisk PipelineError.ioFailure rfl⟩

/-! ## Round trip of the CSV writer and reader (claim C5) -/

/-- A character allowed in an unescaped field is not one of the four
characters that force quoting. -/
theorem needsQuote_false {f : List Char} (h : needsQuote f = false) :
    ∀ c ∈ f, c ≠ ',' ∧ c ≠ '"' ∧ c ≠ '\n' ∧ c ≠ '\r' := by
  intro c hc
  unfold needsQuote at h
  rw [List.any_eq_false] at h
  have := h c hc
  simp at this
  tauto

/-- Reading a quoted body: unescaping undoes the quote doubling, up to the
closing quote, when what follows the closing quote does not begin with yet
another quote. -/
theorem parseQuoted_escQ (cs : List Char) :
    ∀ rest : List Char, rest.head? ≠ some '"' →
      parseQuoted (escQ cs ++ '"' :: rest) = some (cs, rest) := by
  induction cs with
  | nil =>
    intro rest h
    cases rest with
    | nil => rfl
    | cons c rest2 =>
      have hc : c ≠ '"' := fun he => h (by rw [he]; rfl)
      simp [escQ, parseQuoted, hc]
  | cons c cs ih =>
    intro rest h
    by_cases hc : c = '"'
    · subst hc
      simp [escQ, parseQuoted, ih rest h]
    · have he : escQ (c :: cs) = c :: escQ cs := by simp [escQ, hc]
      rw [he, List.cons_append, parseQuoted.eq_def]
      simp [hc, ih rest h]

/-- Reading an unquoted field consumes exactly the field and stops at the
delimiter. -/
theorem parseUnquoted_append (cs : List Char) :
    ∀ rest : List Char, (∀ c ∈ cs, c ≠ ',' ∧ c ≠ '\n') →
      (rest = [] ∨ rest.head? = some ',' ∨ rest.head? = some '\n') →
      parseUnquoted (cs ++ rest) = (cs, rest) := by
  induction cs with
  | nil =>
    intro rest _ hrest
    rcases hrest with h | h | h
    · subst h; rfl
    · cases rest with
      | nil => simp at h
      | cons c r2 =>
        have : c = ',' := by simpa using h
        subst this
        simp [parseUnquoted]
    · cases rest with
      | nil => simp at h
      | cons c r2 =>
        have : c = '\n' := by simpa using h
        subst this
        simp [parseUnquoted]
  | cons c cs ih =>
    intro rest hcs hrest
    have hc := hcs c (List.mem_cons_self c cs)
    have ihr := ih rest (fun d hd => hcs d (List.mem_cons_of_mem c hd)) hrest
    simp [parseUnquoted, hc.1, hc.2, ihr]

/-- A field whose first character is not a quote parses as an unquoted
field. -/
theorem parseField_not_quote (l : List Char) (h : l.head? ≠ some '"') :
    parseField l = some (parseUnquoted l) := by
  cases l with
  | nil => rfl
  | cons c t =>
    have hc : c ≠ '"' := fun he => h (by rw [he]; rfl)
    rw [parseField.eq_def]
    split
    · next rest heq =>
        cases heq
        exact absurd rfl hc
    · rfl

/-- Reading back one escaped field recovers it exactly, leaving the
delimiter in place. -/
theorem parseField_escape (f : List Char) (rest : List Char)
    (hrest : rest = [] ∨ rest.head? = some ',' ∨ rest.head? = some '\n') :
    parseField (escapeFieldChars f ++ rest) = some (f, rest) := by
  have hrq : rest.head? ≠ some '"' := by
    rcases hrest with h | h | h <;> rw [h] <;> simp
  by_cases hq : needsQuote f = true
  · have he : escapeFieldChars f = '"' :: (escQ f ++ ['"']) := by
      simp [escapeFieldChars, hq]
    rw [he]
    have : ('"' :: (escQ f ++ ['"'])) ++ rest = '"' :: (escQ f ++ '"' :: rest) := by
      simp
    rw [this]
    show parseQuoted (escQ f ++ '"' :: rest) = some (f, rest)
    exact parseQuoted_escQ f rest hrq
  · have hq' : needsQuote f = false := by simpa using hq
    have hchars := needsQuote_false hq'
    have he : escapeFieldChars f = f := by simp [escapeFieldChars, hq']
    rw [he]
    have hhead : (f ++ rest).head? ≠ some '"' := by
      cases f with
      | nil => simpa using hrq
      | cons c t =>
        have := (hchars c (List.mem_cons_self c t)).2.1
        simpa using this
    rw [parseField_not_quote _ hhead]
    rw [parseUnquoted_append f rest (fun c hc =>
      ⟨(hchars c hc).1, (hchars c hc).2.2.1⟩) hrest]

/-- Reading back one rendered line recovers its fields, provided the line
has at least one field and the fuel covers the field count. -/
theorem parseRowFuel_render (row : List (List Char)) :
    ∀ (rest : List Char) (fuel : Nat), row.length ≤ fuel → row ≠ [] →
      parseRowFuel fuel (renderRowChars row ++ '\n' :: rest) = some (row, rest) := by
  induction row with
  | nil => intro rest fuel _ hrow; exact absurd rfl hrow
  | cons f fs ih =>
    intro rest fuel hf _
    obtain ⟨k, rfl⟩ : ∃ k, fuel = k + 1 := ⟨fuel - 1, by simp at hf; omega⟩
    cases fs with
    | nil =>
      have h1 : renderRowChars [f] = escapeFieldChars f := rfl
      simp only [h1, parseRowFuel,
        parseField_escape f ('\n' :: rest) (Or.inr (Or.inr rfl))]
    | cons f2 fs2 =>
      have h1 : renderRowChars (f :: f2 :: fs2) =
          escapeFieldChars f ++ ',' :: renderRowChars (f2 :: fs2) := rfl
      have h2 : (escapeFieldChars f ++ ',' :: renderRowChars (f2 :: fs2)) ++ '\n' :: rest =
          escapeFieldChars f ++ ',' :: (renderRowChars (f2 :: fs2) ++ '\n' :: rest) := by
        simp
      have hrec := ih rest k (by simp at hf ⊢; omega) (by simp)
      simp only [h1, h2, parseRowFuel,
        parseField_escape f (',' :: (renderRowChars (f2 :: fs2) ++ '\n' :: rest))
          (Or.inr (Or.inl rfl)), hrec]
      rfl

/-- A rendered line is at most one character shorter than its field
count. -/
theorem renderRow_length (row : List (List Char)) :
    row.length ≤ (renderRowChars row).length + 1 := by
  induction row with
  | nil => simp [renderRowChars]
  | cons f fs ih =>
    cases fs with
    | nil => simp [renderRowChars]
    | cons f2 fs2 =>
      have h1 : renderRowChars (f :: f2 :: fs2) =
          escapeFieldChars f ++ ',' :: renderRowChars (f2 :: fs2) := rfl
      rw [h1]
      simp only [List.length_cons, List.length_append] at ih ⊢
      omega

/-- A rendered file has at least one character per line. -/
theorem renderTable_length (t : List (List (List Char))) :
    t.length ≤ (renderTableChars t).length := by
  induction t with
  | nil => simp [renderTableChars]
  | cons r rs ih =>
    have h1 : renderTableChars (r :: rs) =
        renderRowChars r ++ '\n' :: renderTableChars rs := rfl
    rw [h1]
    simp only [List.length_cons, List.length_append] at ih ⊢
    omega

/-- Reading back a rendered file recovers every line, provided each line
has at least one field and the fuel covers the line count. -/
theorem parseRowsFuel_render (t : List (List (List Char))) :
    ∀ fuel : Nat, (∀ row ∈ t, row ≠ []) → t.length < fuel →
      parseRowsFuel fuel (renderTableChars t) = some t := by
  induction t with
  | nil =>
    intro fuel _ _
    cases fuel <;> rfl
  | cons r rs ih =>
    intro fuel ht hf
    obtain ⟨k, rfl⟩ : ∃ k, fuel = k + 1 := ⟨fuel - 1, by omega⟩
    have hline : renderTableChars (r :: rs) =
        renderRowChars r ++ '\n' :: renderTableChars rs := rfl
    obtain ⟨c, cs, hc⟩ : ∃ c cs, renderTableChars (r :: rs) = c :: cs := by
      cases hrr : renderRowChars r with
      | nil => exact ⟨'\n', renderTableChars rs, by rw [hline, hrr]; rfl⟩
      | cons c cs =>
          exact ⟨c, cs ++ '\n' :: renderTableChars rs, by rw [hline, hrr]; rfl⟩
    have hlen2 : r.length ≤
        (renderRowChars r ++ '\n' :: renderTableChars rs).length + 1 := by
      have h2 := renderRow_length r
      simp only [List.length_append, List.length_cons]
      omega
    have hrow := parseRowFuel_render r (renderTableChars rs)
      ((renderRowChars r ++ '\n' :: renderTableChars rs).length + 1) hlen2
      (ht r (List.mem_cons_self r rs))
    rw [hc]
    simp only [parseRowsFuel]
    rw [← hc, hline, hrow]
    have hrs := ih k (fun row hrow => ht row (List.mem_cons_of_mem r hrow))
      (by simp at hf ⊢; omega)
    show Option.map (fun rows => r :: rows) (parseRowsFuel k (renderTableChars rs)) =
      some (r :: rs)
    rw [hrs]
    rfl

/-- Rebuilding a string from its characters is the identity. -/
theorem string_mk_data (s : String) : String.mk s.data = s := rfl

/-- Splitting every string of a list into characters and rebuilding is the
identity. -/
theorem map_mk_map_data (l : List String) :
    List.map (fun cs => String.mk cs) (List.map String.data l) = l := by
  induction l with
  | nil => rfl
  | cons s t iht => simp only [List.map_cons, iht, string_mk_data]

/-- The same, over a table of strings. -/
theorem map_mk_map_data_table (L : List (List String)) :
    List.map (List.map (fun cs => String.mk cs))
      (List.map (List.map String.data) L) = L := by
  induction L with
  | nil => rfl
  | cons r t iht => simp only [List.map_cons, iht, map_mk_map_data]

/-- C5: writing a table of stringified cells to the output file and reading
the file back as CSV yields exactly the header row of the eight fixed
column names followed by the original rows, in order; the header line is
exactly the fixed column list, and `save_csv` writes precisely the
stringified cells of its Table. -/
theorem csv_round_trip (rows : List (List String))
    (h : ∀ row ∈ rows, row ≠ []) :
    parseCSV (writeCSV rows) = some (requiredCols :: rows)
    ∧ (∀ t : Table, save_csv t = writeCSV (t.map (fun row => row.map cellStr)))
    ∧ writeCSV [] =
        "id,title,published_at,url,comments_count,positive_reactions_count,tag_list,user.username\n" := by
  refine ⟨?_, fun t => rfl, rfl⟩
  unfold parseCSV writeCSV
  have hne : ∀ row ∈ (requiredCols :: rows).map (List.map String.data), row ≠ [] := by
    intro row hrow
    rcases List.mem_map.mp hrow with ⟨srow, hsrow, rfl⟩
    rcases List.mem_cons.mp hsrow with h1 | h1
    · subst h1; simp [requiredCols]
    · have := h srow h1
      simpa using this
  have hlen : ((requiredCols :: rows).map (List.map String.data)).length <
      (String.mk (renderTableChars ((requiredCols :: rows).map (List.map String.data)))).data.length + 1 := by
    have := renderTable_length ((requiredCols :: rows).map (List.map String.data))
    simpa using Nat.lt_succ_of_le this
  rw [show (String.mk (renderTableChars ((requiredCols :: rows).map (List.map String.data)))).data =
    renderTableChars ((requiredCols :: rows).map (List.map String.data)) from rfl] at hlen ⊢
  rw [parseRowsFuel_render _ _ hne hlen]
  show some (List.map (List.map (fun cs => String.mk cs))
    (List.map (List.map String.data) (requiredCols :: rows))) = _
  rw [map_mk_map_data_table]

/-- Witness for C5, at a concrete row exercising the quoting rules. -/
theorem csv_round_trip_witness :
    parseCSV (writeCSV sampleRows) = some (requiredCols :: sampleRows) :=
  (csv_round_trip sampleRows (by simp [sampleRows])).1

end DevtoEtl
